import Mathlib

/-
Verification of the gRPC load-balancing core (balancer registry,
connectivity-state evaluator, resolver registry, and the
loadBalancingConfig selector of BalancerConfig.UnmarshalJSON) against
its natural-language specification.

The Go source is shallowly embedded:
  * Go maps used as registries become functions String -> Option _.
  * uint64 counters become Nat with arithmetic taken modulo 2^64.
  * Fallible code returns a product with an Option String error
    component (none means a nil Go error).
-/

/-- The five connectivity states of package connectivity
(Idle, Connecting, Ready, TransientFailure, Shutdown). -/
inductive ConnectivityState : Type where
  | Idle
  | Connecting
  | Ready
  | TransientFailure
  | Shutdown
deriving DecidableEq

/-- 2^64, the modulus of Go uint64 arithmetic. -/
def U64MOD : Nat := 18446744073709551616

/-- Go's strings.ToLower on a string: every character lowercased.  It is
written by structural recursion over the string's characters (rather
than through String.map, whose well-founded recursion the kernel cannot
evaluate) so concrete registry lookups compute. -/
def toLowerStr (s : String) : String := ⟨s.data.map Char.toLower⟩

/-- uint64 addition: addition modulo 2^64. -/
def uAdd (a b : Nat) : Nat := (a + b) % U64MOD

namespace balancer

/-- A balancer Builder as stored in the balancer registry.  `name` is the
value of the Name() method.  `parseConfig` models the optional
ConfigParser interface: `some` when the builder also implements
ConfigParser, in which case ParseConfig takes the raw JSON config and
returns either an error or a (possibly nil, hence Option) parsed
LoadBalancingConfig.  The Build method plays no role in any claim and is
not modelled. -/
structure Builder (Cfg : Type) where
  name : String
  parseConfig : Option (String → Except String (Option Cfg))

/-- The package-level balancer map m : name -> Builder, modelled as a
function to Option. -/
def RegistryMap (Cfg : Type) := String → Option (Builder Cfg)

/-- The initial empty balancer map. -/
def emptyMap {Cfg : Type} : RegistryMap Cfg := fun _ => none

/-- balancer.Register: stores the builder keyed by its name lowercased
(m[strings.ToLower(b.Name())] = b); the last writer for a key wins. -/
def Register {Cfg : Type} (m : RegistryMap Cfg) (b : Builder Cfg) : RegistryMap Cfg :=
  fun key => if key = toLowerStr b.name then some b else m key

/-- balancer.unregisterForTesting: delete(m, name) on the exact key,
with no case folding. -/
def unregisterForTesting {Cfg : Type} (m : RegistryMap Cfg) (name : String) : RegistryMap Cfg :=
  fun key => if key = name then none else m key

/-- balancer.Get: looks up strings.ToLower(name); nil when absent. -/
def Get {Cfg : Type} (m : RegistryMap Cfg) (name : String) : Option (Builder Cfg) :=
  m (toLowerStr name)

/-- ConnectivityStateEvaluator: two uint64 counters over child SubConn
states. -/
structure ConnectivityStateEvaluator where
  numReady : Nat
  numConnecting : Nat
deriving DecidableEq

/-- One iteration of the counter-update loop in RecordTransition: the
counter matching `state` (Ready -> numReady, Connecting -> numConnecting)
is changed by `updateVal` in uint64 arithmetic; other states touch
nothing. -/
def applyDelta (cse : ConnectivityStateEvaluator) (state : ConnectivityState)
    (updateVal : Nat) : ConnectivityStateEvaluator :=
  match state with
  | .Ready => { cse with numReady := uAdd cse.numReady updateVal }
  | .Connecting => { cse with numConnecting := uAdd cse.numConnecting updateVal }
  | _ => cse

/-- The Evaluate part of RecordTransition: Ready if numReady > 0, else
Connecting if numConnecting > 0, else TransientFailure. -/
def evaluate (cse : ConnectivityStateEvaluator) : ConnectivityState :=
  if cse.numReady > 0 then ConnectivityState.Ready
  else if cse.numConnecting > 0 then ConnectivityState.Connecting
  else ConnectivityState.TransientFailure

/-- RecordTransition(oldState, newState): the source loops over
[(idx 0, oldState), (idx 1, newState)] with updateVal = 2*uint64(idx)-1,
i.e. 2^64-1 (uint64 value of -1) for oldState and 1 for newState, then
evaluates.  Returns the updated evaluator together with the returned
aggregate state. -/
def RecordTransition (cse : ConnectivityStateEvaluator)
    (oldState newState : ConnectivityState) :
    ConnectivityStateEvaluator × ConnectivityState :=
  let cse1 := applyDelta cse oldState (U64MOD - 1)
  let cse2 := applyDelta cse1 newState 1
  (cse2, evaluate cse2)

end balancer

namespace resolver

/-- A resolver Builder as stored in the resolver registry; `scheme` is
the value of the Scheme() method.  The Build method plays no role in any
claim and is not modelled. -/
structure Builder where
  scheme : String

/-- The package-level resolver map m : scheme -> Builder. -/
def RegistryMap := String → Option Builder

/-- The initial empty resolver map. -/
def emptyMap : RegistryMap := fun _ => none

/-- resolver.Register: stores the builder keyed by its scheme exactly as
declared (m[b.Scheme()] = b), case-sensitive. -/
def Register (m : RegistryMap) (b : Builder) : RegistryMap :=
  fun key => if key = b.scheme then some b else m key

/-- resolver.Get: exact, case-sensitive lookup of the scheme. -/
def Get (m : RegistryMap) (scheme : String) : Option Builder :=
  m scheme

/-- resolver.UnregisterForTesting: delete(m, scheme) on the exact key. -/
def UnregisterForTesting (m : RegistryMap) (scheme : String) : RegistryMap :=
  fun key => if key = scheme then none else m key

end resolver

namespace serviceconfig

/-- One entry of intermediateBalancerConfig: a JSON object
map[string]json.RawMessage, modelled as its list of key/value pairs
(raw JSON configs are kept as opaque strings).  JSON decoding into a Go
map yields distinct keys; len(entry) is the number of pairs. -/
abbrev Entry := List (String × String)

/-- BalancerConfig: the selected policy name together with its parsed
configuration (an interface value, nil modelled as none). -/
structure BalancerConfig (Cfg : Type) where
  Name : String
  Config : Option Cfg

/-- Error text for an entry that does not hold exactly one key. -/
def entryMsg (i : Nat) : String :=
  "invalid loadBalancingConfig: entry " ++ toString i ++
    " does not contain exactly 1 policy/config pair"

/-- Error text when the whole list holds no registered policy. -/
def noPoliciesMsg : String :=
  "invalid loadBalancingConfig: no supported policies found"

/-- Error text when the selected policy's ParseConfig fails. -/
def parseMsg (nm e : String) : String :=
  "error parsing loadBalancingConfig for policy " ++ nm ++ ": " ++ e

/-- The loop of BalancerConfig.UnmarshalJSON from entry index i on.
For each entry in order: an entry without exactly one key fails the
whole list; an unregistered policy name (balancer.Get returns nil) is
skipped; at the first registered name the receiver's Name is set and the
method returns - directly (after only logging a warning when the raw
config is non-trivial) when the builder has no ConfigParser, with an
error when ParseConfig fails, and with Config set on success.  An
exhausted list is an error.  Returns the receiver's final state and the
returned error. -/
def unmarshalFrom {Cfg : Type} (reg : balancer.RegistryMap Cfg)
    (bc : BalancerConfig Cfg) :
    Nat → List Entry → BalancerConfig Cfg × Option String
  | _, [] => (bc, some noPoliciesMsg)
  | i, lbcfg :: rest =>
    match lbcfg with
    | [(nm, jsonCfg)] =>
      match balancer.Get reg nm with
      | none => unmarshalFrom reg bc (i + 1) rest
      | some builder =>
        match builder.parseConfig with
        | none => ({ bc with Name := nm }, none)
        | some pc =>
          match pc jsonCfg with
          | .error e => ({ bc with Name := nm }, some (parseMsg nm e))
          | .ok cfg => ({ bc with Name := nm, Config := cfg }, none)
    | _ => (bc, some (entryMsg i))

/-- BalancerConfig.UnmarshalJSON applied to an already JSON-decoded
loadBalancingConfig preference list: runs the selection loop from entry
index 0 on the given receiver. -/
def UnmarshalJSON {Cfg : Type} (reg : balancer.RegistryMap Cfg)
    (bc : BalancerConfig Cfg) (ir : List Entry) :
    BalancerConfig Cfg × Option String :=
  unmarshalFrom reg bc 0 ir

/-- A policy whose parser returns the length of the raw config. -/
def knownBuilder : balancer.Builder Nat :=
  { name := "known_policy",
    parseConfig := some (fun j => Except.ok (some j.length)) }

/-- A registry holding only knownBuilder. -/
def demoReg : balancer.RegistryMap Nat :=
  balancer.Register balancer.emptyMap knownBuilder

/-- A zero receiver for UnmarshalJSON. -/
def bc0 : BalancerConfig Nat := { Name := "", Config := none }

/-- A registered policy with no ConfigParser, under the name "known". -/
def plainBuilder : balancer.Builder Nat :=
  { name := "known", parseConfig := none }

/-- A registry holding only plainBuilder. -/
def plainReg : balancer.RegistryMap Nat :=
  balancer.Register balancer.emptyMap plainBuilder

/-- A policy whose parser always fails. -/
def failBuilder : balancer.Builder Nat :=
  { name := "failing", parseConfig := some (fun _ => Except.error "bad") }

/-- A registry holding knownBuilder and failBuilder. -/
def failReg : balancer.RegistryMap Nat :=
  balancer.Register (balancer.Register balancer.emptyMap knownBuilder) failBuilder

end serviceconfig

/-- One recorded RecordTransition call: the SubConn it concerns (ids
drawn from Fin k for an arbitrary number k of SubConns) together with
its (oldState, newState) arguments. -/
abbrev Transition (k : Nat) := Fin k × ConnectivityState × ConnectivityState

/-- The SubConn state machine of spec section 4.3:
Idle -> Connecting; Connecting -> Ready | TransientFailure;
TransientFailure -> Connecting; Ready -> Idle | Connecting |
TransientFailure; any state -> Shutdown. -/
def validEdge : ConnectivityState → ConnectivityState → Bool
  | _, .Shutdown => true
  | .Idle, .Connecting => true
  | .Connecting, .Ready => true
  | .Connecting, .TransientFailure => true
  | .TransientFailure, .Connecting => true
  | .Ready, .Idle => true
  | .Ready, .Connecting => true
  | .Ready, .TransientFailure => true
  | _, _ => false

/-- A call history is valid for a current state assignment `st` when
each call reports its SubConn's actual current state as oldState, moves
along a state-machine edge, and the rest is valid for the updated
assignment.  Starting from (fun _ => Idle) this says exactly that every
SubConn's own transitions form a path through the state machine starting
at Idle, each observed transition recorded exactly once. -/
def validHistoryB {k : Nat} :
    (Fin k → ConnectivityState) → List (Transition k) → Bool
  | _, [] => true
  | st, (id, o, n) :: rest =>
    decide (o = st id) && validEdge o n && validHistoryB (Function.update st id n) rest

/-- The state assignment after a history has happened. -/
def finalStates {k : Nat} :
    (Fin k → ConnectivityState) → List (Transition k) → (Fin k → ConnectivityState)
  | st, [] => st
  | st, (id, _, n) :: rest => finalStates (Function.update st id n) rest

/-- Feed every transition of the history to RecordTransition, keeping
the evaluator state. -/
def recordAll {k : Nat} :
    balancer.ConnectivityStateEvaluator → List (Transition k) →
      balancer.ConnectivityStateEvaluator
  | cse, [] => cse
  | cse, (_, o, n) :: rest => recordAll (balancer.RecordTransition cse o n).1 rest

/-- The value returned by the last RecordTransition call of the history
(none for the empty history). -/
def lastReturn {k : Nat} :
    balancer.ConnectivityStateEvaluator → List (Transition k) →
      Option ConnectivityState
  | _, [] => none
  | cse, (_, o, n) :: rest =>
    match rest with
    | [] => some (balancer.RecordTransition cse o n).2
    | _ :: _ => lastReturn (balancer.RecordTransition cse o n).1 rest

/-- Indicator: 1 when the state s equals t. -/
def indC (s t : ConnectivityState) : Nat := if s = t then 1 else 0

/-- How many SubConns are currently in state t. -/
def stateCount {k : Nat} (st : Fin k → ConnectivityState)
    (t : ConnectivityState) : Nat :=
  Finset.sum Finset.univ (fun i => indC (st i) t)

/-- The spec example history: two SubConns go Idle to Connecting, then
the first goes Connecting to Ready. -/
def demoHist : List (Transition 2) :=
  [((0 : Fin 2), ConnectivityState.Idle, ConnectivityState.Connecting),
   ((1 : Fin 2), ConnectivityState.Idle, ConnectivityState.Connecting),
   ((0 : Fin 2), ConnectivityState.Connecting, ConnectivityState.Ready)]

/-- A balancer builder declared under the mixed-case name "Foo". -/
def bFoo : balancer.Builder Nat := { name := "Foo", parseConfig := none }

/-- A resolver builder for the scheme "dns". -/
def dnsBuilder : resolver.Builder := { scheme := "dns" }

lemma lastReturn_eq {k : Nat} (h : List (Transition k)) :
    ∀ cse, h ≠ [] →
      lastReturn cse h = some (balancer.evaluate (recordAll cse h)) := by
  induction h with
  | nil => intro cse hne; exact absurd rfl hne
  | cons tr rest ih =>
    intro cse _
    obtain ⟨id, o, n⟩ := tr
    cases rest with
    | nil => rfl
    | cons t2 rest2 =>
      rw [show lastReturn cse ((id, o, n) :: t2 :: rest2)
            = lastReturn (balancer.RecordTransition cse o n).1 (t2 :: rest2) from rfl]
      rw [ih (balancer.RecordTransition cse o n).1 (by simp)]
      rfl

lemma applyDelta_numReady (cse : balancer.ConnectivityStateEvaluator)
    (s : ConnectivityState) (v : Nat) :
    (balancer.applyDelta cse s v).numReady
      = if s = ConnectivityState.Ready then uAdd cse.numReady v else cse.numReady := by
  cases s <;> rfl

lemma applyDelta_numConnecting (cse : balancer.ConnectivityStateEvaluator)
    (s : ConnectivityState) (v : Nat) :
    (balancer.applyDelta cse s v).numConnecting
      = if s = ConnectivityState.Connecting then uAdd cse.numConnecting v
        else cse.numConnecting := by
  cases s <;> rfl

lemma sum_indC_le {k : Nat} (s : Finset (Fin k))
    (st : Fin k → ConnectivityState) (t : ConnectivityState) :
    Finset.sum s (fun i => indC (st i) t) ≤ s.card := by
  have hb : ∀ i ∈ s, indC (st i) t ≤ 1 := by
    intro i _
    unfold indC
    split <;> omega
  calc Finset.sum s (fun i => indC (st i) t)
      ≤ Finset.sum s (fun _ => 1) := Finset.sum_le_sum hb
    _ = s.card := by simp

lemma stateCount_split {k : Nat} (st : Fin k → ConnectivityState)
    (t : ConnectivityState) (id : Fin k) :
    stateCount st t
      = indC (st id) t + Finset.sum (Finset.univ.erase id) (fun i => indC (st i) t) := by
  unfold stateCount
  rw [← Finset.add_sum_erase Finset.univ (fun i => indC (st i) t) (Finset.mem_univ id)]

lemma stateCount_update {k : Nat} (st : Fin k → ConnectivityState)
    (t : ConnectivityState) (id : Fin k) (n : ConnectivityState) :
    stateCount (Function.update st id n) t
      = indC n t + Finset.sum (Finset.univ.erase id) (fun i => indC (st i) t) := by
  rw [stateCount_split (Function.update st id n) t id]
  congr 1
  · rw [Function.update_same]
  · exact Finset.sum_congr rfl fun x hx => by
      rw [Function.update_noteq (Finset.ne_of_mem_erase hx)]

lemma counterStep (S : Nat) (hS : S + 1 < U64MOD) (o n t : ConnectivityState) :
    (if n = t then
        uAdd (if o = t then uAdd (indC o t + S) (U64MOD - 1) else indC o t + S) 1
      else if o = t then uAdd (indC o t + S) (U64MOD - 1) else indC o t + S)
      = indC n t + S := by
  unfold uAdd indC U64MOD at *
  by_cases ho : o = t <;> by_cases hn : n = t <;> simp [ho, hn] <;> omega

lemma recordAll_counts {k : Nat} (hk : k < U64MOD) (h : List (Transition k)) :
    ∀ (st : Fin k → ConnectivityState) (cse : balancer.ConnectivityStateEvaluator),
      validHistoryB st h = true →
      cse.numReady = stateCount st ConnectivityState.Ready →
      cse.numConnecting = stateCount st ConnectivityState.Connecting →
      (recordAll cse h).numReady
          = stateCount (finalStates st h) ConnectivityState.Ready ∧
      (recordAll cse h).numConnecting
          = stateCount (finalStates st h) ConnectivityState.Connecting := by
  induction h with
  | nil => intro st cse _ hR hC; exact ⟨hR, hC⟩
  | cons tr rest ih =>
    intro st cse hv hR hC
    obtain ⟨id, o, n⟩ := tr
    simp only [validHistoryB, Bool.and_eq_true, decide_eq_true_eq] at hv
    obtain ⟨⟨ho, _⟩, hrest⟩ := hv
    have hcard : (Finset.univ.erase id).card = k - 1 := by
      rw [Finset.card_erase_of_mem (Finset.mem_univ id), Finset.card_univ,
        Fintype.card_fin]
    have hkpos : 0 < k := id.pos
    have hsumR : Finset.sum (Finset.univ.erase id)
        (fun i => indC (st i) ConnectivityState.Ready) + 1 < U64MOD := by
      have h1 := sum_indC_le (Finset.univ.erase id) st ConnectivityState.Ready
      rw [hcard] at h1
      omega
    have hsumC : Finset.sum (Finset.univ.erase id)
        (fun i => indC (st i) ConnectivityState.Connecting) + 1 < U64MOD := by
      have h1 := sum_indC_le (Finset.univ.erase id) st ConnectivityState.Connecting
      rw [hcard] at h1
      omega
    have hstR : cse.numReady = indC o ConnectivityState.Ready
        + Finset.sum (Finset.univ.erase id)
            (fun i => indC (st i) ConnectivityState.Ready) := by
      rw [hR, stateCount_split st ConnectivityState.Ready id, ← ho]
    have hstC : cse.numConnecting = indC o ConnectivityState.Connecting
        + Finset.sum (Finset.univ.erase id)
            (fun i => indC (st i) ConnectivityState.Connecting) := by
      rw [hC, stateCount_split st ConnectivityState.Connecting id, ← ho]
    have stepR : (balancer.RecordTransition cse o n).1.numReady
        = stateCount (Function.update st id n) ConnectivityState.Ready := by
      rw [stateCount_update]
      rw [show (balancer.RecordTransition cse o n).1
            = balancer.applyDelta (balancer.applyDelta cse o (U64MOD - 1)) n 1 from rfl]
      rw [applyDelta_numReady, applyDelta_numReady, hstR]
      exact counterStep _ hsumR o n ConnectivityState.Ready
    have stepC : (balancer.RecordTransition cse o n).1.numConnecting
        = stateCount (Function.update st id n) ConnectivityState.Connecting := by
      rw [stateCount_update]
      rw [show (balancer.RecordTransition cse o n).1
            = balancer.applyDelta (balancer.applyDelta cse o (U64MOD - 1)) n 1 from rfl]
      rw [applyDelta_numConnecting, applyDelta_numConnecting, hstC]
      exact counterStep _ hsumC o n ConnectivityState.Connecting
    exact ih (Function.update st id n) (balancer.RecordTransition cse o n).1
      hrest stepR stepC

lemma stateCount_pos_iff {k : Nat} (st : Fin k → ConnectivityState)
    (t : ConnectivityState) :
    0 < stateCount st t ↔ ∃ i, st i = t := by
  unfold stateCount
  constructor
  · intro hpos
    by_contra hno
    push_neg at hno
    have hz : Finset.sum Finset.univ (fun i => indC (st i) t) = 0 :=
      Finset.sum_eq_zero (fun i _ => by unfold indC; simp [hno i])
    omega
  · rintro ⟨i, hi⟩
    have h1 : indC (st i) t = 1 := by unfold indC; simp [hi]
    have h2 : indC (st i) t ≤ Finset.sum Finset.univ (fun j => indC (st j) t) :=
      Finset.single_le_sum (f := fun j => indC (st j) t)
        (fun j _ => Nat.zero_le _) (Finset.mem_univ i)
    omega

lemma recordAll_inert {k : Nat} (h : List (Transition k))
    (hys : ∀ t ∈ h,
      (t.2.1 = ConnectivityState.Idle ∨ t.2.1 = ConnectivityState.Shutdown)
      ∧ (t.2.2 = ConnectivityState.Idle ∨ t.2.2 = ConnectivityState.Shutdown)) :
    ∀ cse, recordAll cse h = cse := by
  induction h with
  | nil => intro cse; rfl
  | cons tr rest ih =>
    intro cse
    obtain ⟨id, o, n⟩ := tr
    have h1 := hys (id, o, n) (by simp)
    have h2 : (balancer.RecordTransition cse o n).1 = cse := by
      rcases h1.1 with ho | ho <;> rcases h1.2 with hn | hn <;>
        (subst ho; subst hn; rfl)
    rw [show recordAll cse ((id, o, n) :: rest)
          = recordAll (balancer.RecordTransition cse o n).1 rest from rfl, h2]
    exact ih (fun t ht => hys t (by simp [ht])) cse

namespace serviceconfig

lemma unmarshalFrom_skip {Cfg : Type} (reg : balancer.RegistryMap Cfg)
    (bc : BalancerConfig Cfg) (pre rest : List Entry)
    (hpre : ∀ entry ∈ pre, ∃ nm c, entry = [(nm, c)] ∧ balancer.Get reg nm = none) :
    ∀ i, unmarshalFrom reg bc i (pre ++ rest)
      = unmarshalFrom reg bc (i + pre.length) rest := by
  induction pre with
  | nil => intro i; simp
  | cons e pre ih =>
    intro i
    obtain ⟨nm, c, he, hget⟩ := hpre e (by simp)
    subst he
    have hrest : ∀ entry ∈ pre, ∃ nm c, entry = [(nm, c)]
        ∧ balancer.Get reg nm = none := fun entry hm => hpre entry (by simp [hm])
    rw [show ([(nm, c)] :: pre) ++ rest = [(nm, c)] :: (pre ++ rest) from rfl]
    rw [show unmarshalFrom reg bc i ([(nm, c)] :: (pre ++ rest))
          = (match balancer.Get reg nm with
              | none => unmarshalFrom reg bc (i + 1) (pre ++ rest)
              | some builder =>
                match builder.parseConfig with
                | none => ({ bc with Name := nm }, none)
                | some pc =>
                  match pc c with
                  | .error e => ({ bc with Name := nm }, some (parseMsg nm e))
                  | .ok cfg => ({ bc with Name := nm, Config := cfg }, none))
          from rfl]
    rw [hget, ih hrest (i + 1)]
    have harith : i + 1 + pre.length = i + ([(nm, c)] :: pre).length := by
      simp [List.length_cons]
      omega
    rw [harith]

lemma unmarshalFrom_registered {Cfg : Type} (reg : balancer.RegistryMap Cfg)
    (bc : BalancerConfig Cfg) (i : Nat) (nm c : String) (rest : List Entry)
    (builder : balancer.Builder Cfg)
    (hreg : balancer.Get reg nm = some builder) :
    unmarshalFrom reg bc i ([(nm, c)] :: rest)
      = unmarshalFrom reg bc i [[(nm, c)]] := by
  simp only [unmarshalFrom]
  rw [hreg]

/-- C1: for every preference list of shape pre ++ [entry_i] ++ post in
which every entry of pre has exactly one key naming an unregistered
policy and entry_i has exactly one key naming a registered policy,
UnmarshalJSON skips pre without error and terminates at entry_i: the
result equals running the loop on entry_i alone (entries of post are
never consulted), and when the registered builder's ParseConfig accepts
the raw config the receiver ends as (entry_i's name, the parsed config)
with a nil error. -/
theorem C1_first_registered_policy_wins {Cfg : Type}
    (reg : balancer.RegistryMap Cfg) (bc : BalancerConfig Cfg)
    (pre post : List Entry) (nm c : String) (builder : balancer.Builder Cfg)
    (hpre : ∀ entry ∈ pre, ∃ n j, entry = [(n, j)] ∧ balancer.Get reg n = none)
    (hreg : balancer.Get reg nm = some builder) :
    UnmarshalJSON reg bc (pre ++ [(nm, c)] :: post)
      = unmarshalFrom reg bc pre.length [[(nm, c)]]
    ∧ ∀ (pc : String → Except String (Option Cfg)) (v : Option Cfg),
        builder.parseConfig = some pc → pc c = Except.ok v →
        UnmarshalJSON reg bc (pre ++ [(nm, c)] :: post)
          = ({ Name := nm, Config := v }, none) := by
  have hskip := unmarshalFrom_skip reg bc pre ([(nm, c)] :: post) hpre 0
  have hmain : UnmarshalJSON reg bc (pre ++ [(nm, c)] :: post)
      = unmarshalFrom reg bc pre.length [[(nm, c)]] := by
    rw [UnmarshalJSON, hskip, Nat.zero_add,
      unmarshalFrom_registered reg bc pre.length nm c post builder hreg]
  refine ⟨hmain, ?_⟩
  intro pc v hpc hok
  rw [hmain]
  simp only [unmarshalFrom, hreg, hpc, hok]

/-- Witness for C1 at the spec example shape: the unknown first entry is
skipped and the registered second entry is selected and parsed. -/
theorem C1_witness :
    UnmarshalJSON demoReg bc0 [[("unknown_policy", "u")], [("known_policy", "x1")]]
      = ({ Name := "known_policy", Config := some 2 }, none) :=
  (C1_first_registered_policy_wins demoReg bc0 [[("unknown_policy", "u")]] []
      "known_policy" "x1" knownBuilder
      (by
        intro entry hm
        simp only [List.mem_singleton] at hm
        subst hm
        exact ⟨"unknown_policy", "u", rfl, rfl⟩)
      rfl).2
    (fun j => Except.ok (some j.length)) (some 2) rfl rfl

/-- C2 counterexample: a malformed two-key entry sitting after the first
registered entry is never reached, so UnmarshalJSON succeeds (nil error)
instead of failing the list as the claim demands for every position. -/
theorem C2_counterexample :
    (UnmarshalJSON plainReg bc0 [[("known", "k")], [("a", "x"), ("b", "y")]]).2
      = none := rfl

/-- C2 (amended): an entry with more or fewer than one key fails the
whole list with an error when it is reached, i.e. when every entry
before it has exactly one key and names an unregistered policy; a
malformed entry after the terminating entry is never consulted. -/
theorem C2_amended_malformed_entry {Cfg : Type}
    (reg : balancer.RegistryMap Cfg) (bc : BalancerConfig Cfg)
    (pre post : List Entry) (bad : Entry)
    (hpre : ∀ entry ∈ pre, ∃ n j, entry = [(n, j)] ∧ balancer.Get reg n = none)
    (hbad : bad.length ≠ 1) :
    (UnmarshalJSON reg bc (pre ++ bad :: post)).2.isSome = true := by
  rw [UnmarshalJSON, unmarshalFrom_skip reg bc pre (bad :: post) hpre 0]
  rcases bad with _ | ⟨p, _ | ⟨q, tail⟩⟩
  · simp [unmarshalFrom]
  · simp at hbad
  · simp [unmarshalFrom]

/-- Witness for C2 (amended): an empty entry (zero keys) in first
position fails the parse. -/
theorem C2_witness : (UnmarshalJSON plainReg bc0 [[]]).2.isSome = true :=
  C2_amended_malformed_entry plainReg bc0 [] [] []
    (by intro entry hm; exact absurd hm (by simp)) (by decide)

/-- C3: when the first reachable registered policy implements
ConfigParser and its ParseConfig rejects the raw config, UnmarshalJSON
returns a non-nil error for the entire list, whatever entries (also
registered, parseable ones) follow. -/
theorem C3_parser_error_fails_list {Cfg : Type}
    (reg : balancer.RegistryMap Cfg) (bc : BalancerConfig Cfg)
    (pre post : List Entry) (nm c : String) (builder : balancer.Builder Cfg)
    (pc : String → Except String (Option Cfg)) (e : String)
    (hpre : ∀ entry ∈ pre, ∃ n j, entry = [(n, j)] ∧ balancer.Get reg n = none)
    (hreg : balancer.Get reg nm = some builder)
    (hpc : builder.parseConfig = some pc) (herr : pc c = Except.error e) :
    (UnmarshalJSON reg bc (pre ++ [(nm, c)] :: post)).2.isSome = true := by
  rw [UnmarshalJSON, unmarshalFrom_skip reg bc pre ([(nm, c)] :: post) hpre 0]
  simp only [unmarshalFrom, hreg, hpc, herr]
  rfl

/-- Witness for C3: the failing first policy poisons the list although
the second entry would parse fine. -/
theorem C3_witness :
    (UnmarshalJSON failReg bc0
        [[("failing", "z")], [("known_policy", "x1")]]).2.isSome = true :=
  C3_parser_error_fails_list failReg bc0 [] [[("known_policy", "x1")]]
    "failing" "z" failBuilder (fun _ => Except.error "bad") "bad"
    (by intro entry hm; exact absurd hm (by simp)) rfl rfl rfl

/-- C6: a preference list (also the empty one) whose entries all have
exactly one key and all name unregistered policies makes UnmarshalJSON
return a non-nil error: no supported policy was found. -/
theorem C6_no_supported_policy {Cfg : Type}
    (reg : balancer.RegistryMap Cfg) (bc : BalancerConfig Cfg)
    (ir : List Entry)
    (h : ∀ entry ∈ ir, ∃ n j, entry = [(n, j)] ∧ balancer.Get reg n = none) :
    (UnmarshalJSON reg bc ir).2.isSome = true := by
  have hskip := unmarshalFrom_skip reg bc ir [] h 0
  rw [List.append_nil] at hskip
  rw [UnmarshalJSON, hskip]
  rfl

/-- Witness for C6 at a one-entry list naming an unregistered policy. -/
theorem C6_witness : (UnmarshalJSON plainReg bc0 [[("nope", "x")]]).2.isSome = true :=
  C6_no_supported_policy plainReg bc0 [[("nope", "x")]]
    (by
      intro entry hm
      simp only [List.mem_singleton] at hm
      subst hm
      exact ⟨"nope", "x", rfl, rfl⟩)

/-- C9: on the parser-error path UnmarshalJSON is not atomic: it returns
a non-nil error, yet the receiver's Name has already been overwritten
with the failing policy's name while Config is left unchanged; the
receiver is not restored. -/
theorem C9_error_path_mutates_name {Cfg : Type}
    (reg : balancer.RegistryMap Cfg) (bc : BalancerConfig Cfg)
    (pre post : List Entry) (nm c : String) (builder : balancer.Builder Cfg)
    (pc : String → Except String (Option Cfg)) (e : String)
    (hpre : ∀ entry ∈ pre, ∃ n j, entry = [(n, j)] ∧ balancer.Get reg n = none)
    (hreg : balancer.Get reg nm = some builder)
    (hpc : builder.parseConfig = some pc) (herr : pc c = Except.error e) :
    (UnmarshalJSON reg bc (pre ++ [(nm, c)] :: post)).1.Name = nm
    ∧ (UnmarshalJSON reg bc (pre ++ [(nm, c)] :: post)).1.Config = bc.Config
    ∧ (UnmarshalJSON reg bc (pre ++ [(nm, c)] :: post)).2.isSome = true := by
  have hmain : UnmarshalJSON reg bc (pre ++ [(nm, c)] :: post)
      = ({ bc with Name := nm }, some (parseMsg nm e)) := by
    rw [UnmarshalJSON, unmarshalFrom_skip reg bc pre ([(nm, c)] :: post) hpre 0]
    simp only [unmarshalFrom, hreg, hpc, herr]
  rw [hmain]
  exact ⟨rfl, rfl, rfl⟩

/-- Witness for C9: after the failing parse the receiver carries the
failing policy's name and its old Config. -/
theorem C9_witness :
    (UnmarshalJSON failReg bc0 [[("failing", "z")]]).1.Name = "failing"
    ∧ (UnmarshalJSON failReg bc0 [[("failing", "z")]]).1.Config = bc0.Config
    ∧ (UnmarshalJSON failReg bc0 [[("failing", "z")]]).2.isSome = true :=
  C9_error_path_mutates_name failReg bc0 [] [] "failing" "z" failBuilder
    (fun _ => Except.error "bad") "bad"
    (by intro entry hm; exact absurd hm (by simp)) rfl rfl rfl

end serviceconfig

/-- C4: for every sequence of RecordTransition calls on one
ConnectivityStateEvaluator that forms a valid state history over k
SubConns (each SubConn's transitions form a path through the SubConn
state machine starting from Idle, each observed transition recorded
exactly once; k below 2^64 so the uint64 counters cannot saturate), the
value returned by the last RecordTransition is Ready iff at least one
SubConn is currently Ready; else Connecting iff at least one is
currently Connecting; else TransientFailure. -/
theorem C4_valid_history_aggregate {k : Nat} (hk : k < U64MOD)
    (h : List (Transition k)) (hne : h ≠ [])
    (hv : validHistoryB (fun _ => ConnectivityState.Idle) h = true) :
    (lastReturn ⟨0, 0⟩ h = some ConnectivityState.Ready
        ↔ ∃ i, finalStates (fun _ => ConnectivityState.Idle) h i
            = ConnectivityState.Ready)
    ∧ (lastReturn ⟨0, 0⟩ h = some ConnectivityState.Connecting
        ↔ (¬ (∃ i, finalStates (fun _ => ConnectivityState.Idle) h i
              = ConnectivityState.Ready)
            ∧ ∃ i, finalStates (fun _ => ConnectivityState.Idle) h i
                = ConnectivityState.Connecting))
    ∧ (lastReturn ⟨0, 0⟩ h = some ConnectivityState.TransientFailure
        ↔ (¬ (∃ i, finalStates (fun _ => ConnectivityState.Idle) h i
              = ConnectivityState.Ready)
            ∧ ¬ ∃ i, finalStates (fun _ => ConnectivityState.Idle) h i
                = ConnectivityState.Connecting)) := by
  obtain ⟨hnr, hnc⟩ := recordAll_counts hk h (fun _ => ConnectivityState.Idle)
    ⟨0, 0⟩ hv (by simp [stateCount, indC]) (by simp [stateCount, indC])
  rw [lastReturn_eq h ⟨0, 0⟩ hne]
  unfold balancer.evaluate
  rw [hnr, hnc]
  by_cases hRe : ∃ i, finalStates (fun _ => ConnectivityState.Idle) h i
      = ConnectivityState.Ready
  · have hpos : 0 < stateCount (finalStates (fun _ => ConnectivityState.Idle) h)
        ConnectivityState.Ready := (stateCount_pos_iff _ _).mpr hRe
    simp [hpos, hRe]
  · have hz : ¬ 0 < stateCount (finalStates (fun _ => ConnectivityState.Idle) h)
        ConnectivityState.Ready := fun hc => hRe ((stateCount_pos_iff _ _).mp hc)
    by_cases hCo : ∃ i, finalStates (fun _ => ConnectivityState.Idle) h i
        = ConnectivityState.Connecting
    · have hpos : 0 < stateCount (finalStates (fun _ => ConnectivityState.Idle) h)
          ConnectivityState.Connecting := (stateCount_pos_iff _ _).mpr hCo
      simp [hz, hpos, hRe, hCo]
    · have hz2 : ¬ 0 < stateCount (finalStates (fun _ => ConnectivityState.Idle) h)
          ConnectivityState.Connecting := fun hc => hCo ((stateCount_pos_iff _ _).mp hc)
      simp [hz, hz2, hRe, hCo]

/-- Witness for C4 at the spec example history: the last RecordTransition
returns Ready. -/
theorem C4_witness : lastReturn ⟨0, 0⟩ demoHist = some ConnectivityState.Ready :=
  (C4_valid_history_aggregate (by decide) demoHist (by decide) (by decide)).1.mpr
    ⟨0, by decide⟩

/-- C5: one call RecordTransition(oldState, newState) on any evaluator
whose counters are uint64 values: numReady (resp. numConnecting) is
decremented in uint64 arithmetic when oldState is Ready
(resp. Connecting) and incremented when newState is, while Idle,
Shutdown and TransientFailure touch neither counter; the returned
aggregate is Ready if numReady > 0 after the update, else Connecting if
numConnecting > 0, else TransientFailure; in particular a fresh
evaluator that has recorded only Idle/Shutdown-valued transitions
returns TransientFailure. -/
theorem C5_single_call (cse : balancer.ConnectivityStateEvaluator)
    (o n : ConnectivityState)
    (hR : cse.numReady < U64MOD) (hC : cse.numConnecting < U64MOD) :
    ((balancer.RecordTransition cse o n).1.numReady
        = (cse.numReady + (if o = ConnectivityState.Ready then U64MOD - 1 else 0)
            + (if n = ConnectivityState.Ready then 1 else 0)) % U64MOD)
    ∧ ((balancer.RecordTransition cse o n).1.numConnecting
        = (cse.numConnecting
            + (if o = ConnectivityState.Connecting then U64MOD - 1 else 0)
            + (if n = ConnectivityState.Connecting then 1 else 0)) % U64MOD)
    ∧ ((balancer.RecordTransition cse o n).2
        = if (balancer.RecordTransition cse o n).1.numReady > 0 then
            ConnectivityState.Ready
          else if (balancer.RecordTransition cse o n).1.numConnecting > 0 then
            ConnectivityState.Connecting
          else ConnectivityState.TransientFailure)
    ∧ (∀ (k : Nat) (h : List (Transition k)), h ≠ [] →
        (∀ t ∈ h,
          (t.2.1 = ConnectivityState.Idle ∨ t.2.1 = ConnectivityState.Shutdown)
          ∧ (t.2.2 = ConnectivityState.Idle ∨ t.2.2 = ConnectivityState.Shutdown)) →
        lastReturn ⟨0, 0⟩ h = some ConnectivityState.TransientFailure) := by
  refine ⟨?_, ?_, rfl, ?_⟩
  · rw [show (balancer.RecordTransition cse o n).1
        = balancer.applyDelta (balancer.applyDelta cse o (U64MOD - 1)) n 1 from rfl]
    rw [applyDelta_numReady, applyDelta_numReady]
    unfold uAdd U64MOD at *
    by_cases ho : o = ConnectivityState.Ready <;>
      by_cases hn : n = ConnectivityState.Ready <;> simp [ho, hn] <;> omega
  · rw [show (balancer.RecordTransition cse o n).1
        = balancer.applyDelta (balancer.applyDelta cse o (U64MOD - 1)) n 1 from rfl]
    rw [applyDelta_numConnecting, applyDelta_numConnecting]
    unfold uAdd U64MOD at *
    by_cases ho : o = ConnectivityState.Connecting <;>
      by_cases hn : n = ConnectivityState.Connecting <;> simp [ho, hn] <;> omega
  · intro k h hne hys
    rw [lastReturn_eq h ⟨0, 0⟩ hne, recordAll_inert h hys ⟨0, 0⟩]
    rfl

/-- Witness for C5 at a fresh evaluator and the call (Idle, Connecting),
plus the one-element Idle-to-Idle history returning TransientFailure. -/
theorem C5_witness :
    ((balancer.RecordTransition ⟨0, 0⟩ ConnectivityState.Idle
        ConnectivityState.Connecting).1.numConnecting
      = (0 + (if ConnectivityState.Idle = ConnectivityState.Connecting then
            U64MOD - 1 else 0)
          + (if ConnectivityState.Connecting = ConnectivityState.Connecting then
            1 else 0)) % U64MOD)
    ∧ lastReturn ⟨0, 0⟩
        [((0 : Fin 1), ConnectivityState.Idle, ConnectivityState.Idle)]
        = some ConnectivityState.TransientFailure :=
  ⟨(C5_single_call ⟨0, 0⟩ ConnectivityState.Idle ConnectivityState.Connecting
      (by decide) (by decide)).2.1,
   (C5_single_call ⟨0, 0⟩ ConnectivityState.Idle ConnectivityState.Connecting
      (by decide) (by decide)).2.2.2 1
      [((0 : Fin 1), ConnectivityState.Idle, ConnectivityState.Idle)]
      (by decide) (by decide)⟩

/-- C7: registering a balancer Builder with declared name "Foo" stores
it under the lowercased key, and Get case-folds the query, so "foo",
"FOO" and every other case variant (any query whose lowercasing is
"foo") return the builder; the resolver registry is exact-case: after
registering a resolver Builder, a lookup succeeds exactly for the scheme
string as declared. -/
theorem C7_registry_case_folding (Cfg : Type) (b : balancer.Builder Cfg)
    (hb : b.name = "Foo") (s : String) (rb : resolver.Builder) (t : String) :
    balancer.Get (balancer.Register balancer.emptyMap b) "foo" = some b
    ∧ balancer.Get (balancer.Register balancer.emptyMap b) "FOO" = some b
    ∧ (toLowerStr s = "foo" →
        balancer.Get (balancer.Register balancer.emptyMap b) s = some b)
    ∧ (resolver.Get (resolver.Register resolver.emptyMap rb) t = some rb
        ↔ t = rb.scheme) := by
  refine ⟨?_, ?_, ?_, ?_⟩
  · show (if toLowerStr "foo" = toLowerStr b.name then some b
          else balancer.emptyMap (toLowerStr "foo")) = some b
    rw [hb, if_pos (by decide)]
  · show (if toLowerStr "FOO" = toLowerStr b.name then some b
          else balancer.emptyMap (toLowerStr "FOO")) = some b
    rw [hb, if_pos (by decide)]
  · intro hs
    show (if toLowerStr s = toLowerStr b.name then some b
          else balancer.emptyMap (toLowerStr s)) = some b
    rw [hb, if_pos (by rw [hs]; decide)]
  · constructor
    · intro hget
      by_cases ht : t = rb.scheme
      · exact ht
      · rw [show resolver.Get (resolver.Register resolver.emptyMap rb) t
              = (if t = rb.scheme then some rb else resolver.emptyMap t) from rfl,
          if_neg ht] at hget
        exact Option.noConfusion hget
    · intro ht
      show (if t = rb.scheme then some rb else resolver.emptyMap t) = some rb
      rw [if_pos ht]

/-- Witness for C7 with the builder named "Foo", the case variant "fOo",
and the resolver scheme "dns". -/
theorem C7_witness :
    balancer.Get (balancer.Register balancer.emptyMap bFoo) "foo" = some bFoo
    ∧ balancer.Get (balancer.Register balancer.emptyMap bFoo) "FOO" = some bFoo
    ∧ balancer.Get (balancer.Register balancer.emptyMap bFoo) "fOo" = some bFoo
    ∧ resolver.Get (resolver.Register resolver.emptyMap dnsBuilder) "dns"
        = some dnsBuilder :=
  ⟨(C7_registry_case_folding Nat bFoo rfl "fOo" dnsBuilder "dns").1,
   (C7_registry_case_folding Nat bFoo rfl "fOo" dnsBuilder "dns").2.1,
   (C7_registry_case_folding Nat bFoo rfl "fOo" dnsBuilder "dns").2.2.1 (by decide),
   (C7_registry_case_folding Nat bFoo rfl "fOo" dnsBuilder "dns").2.2.2.mpr rfl⟩

/-- C8 counterexample: the claim quantifies over every newState, but for
RecordTransition(Ready, Ready) on a fresh evaluator the decremented
counter is immediately re-incremented: numReady ends at 0, not 2^64-1,
and the returned aggregate is TransientFailure, not Ready. -/
theorem C8_counterexample :
    (balancer.RecordTransition ⟨0, 0⟩ ConnectivityState.Ready
        ConnectivityState.Ready).1.numReady ≠ U64MOD - 1
    ∧ (balancer.RecordTransition ⟨0, 0⟩ ConnectivityState.Ready
        ConnectivityState.Ready).2 ≠ ConnectivityState.Ready := by
  decide

/-- C8 (amended): the counters are uint64 and wrap modulo 2^64.  When
oldState is Ready while numReady is 0, and newState is not also Ready,
numReady underflows to 2^64-1 and the aggregate is Ready although no
SubConn is Ready.  When oldState is Connecting while numConnecting is 0,
and newState is not also Connecting, numConnecting underflows to 2^64-1,
and the aggregate is Connecting provided Ready stays uncounted
(numReady is 0 and newState is not Ready).  Each branch assumes only
the counter it is about. -/
theorem C8_underflow_amended (cse : balancer.ConnectivityStateEvaluator)
    (n : ConnectivityState) :
    (cse.numReady = 0 → n ≠ ConnectivityState.Ready →
      (balancer.RecordTransition cse ConnectivityState.Ready n).1.numReady
          = U64MOD - 1
        ∧ (balancer.RecordTransition cse ConnectivityState.Ready n).2
          = ConnectivityState.Ready)
    ∧ (cse.numConnecting = 0 → n ≠ ConnectivityState.Connecting →
      (balancer.RecordTransition cse ConnectivityState.Connecting n).1.numConnecting
          = U64MOD - 1
        ∧ (cse.numReady = 0 → n ≠ ConnectivityState.Ready →
            (balancer.RecordTransition cse ConnectivityState.Connecting n).2
              = ConnectivityState.Connecting)) := by
  constructor
  · intro hR hn
    have e1 : (balancer.RecordTransition cse ConnectivityState.Ready n).1.numReady
        = U64MOD - 1 := by
      rw [show (balancer.RecordTransition cse ConnectivityState.Ready n).1
            = balancer.applyDelta
                (balancer.applyDelta cse ConnectivityState.Ready (U64MOD - 1)) n 1
            from rfl]
      rw [applyDelta_numReady, applyDelta_numReady, hR, if_neg hn, if_pos rfl]
      unfold uAdd U64MOD
      omega
    refine ⟨e1, ?_⟩
    rw [show (balancer.RecordTransition cse ConnectivityState.Ready n).2
          = balancer.evaluate
              (balancer.RecordTransition cse ConnectivityState.Ready n).1 from rfl]
    unfold balancer.evaluate
    rw [e1]
    rw [if_pos (by unfold U64MOD; omega)]
  · intro hC hn
    have e1 : (balancer.RecordTransition cse
          ConnectivityState.Connecting n).1.numConnecting = U64MOD - 1 := by
      rw [show (balancer.RecordTransition cse ConnectivityState.Connecting n).1
            = balancer.applyDelta
                (balancer.applyDelta cse ConnectivityState.Connecting (U64MOD - 1)) n 1
            from rfl]
      rw [applyDelta_numConnecting, applyDelta_numConnecting, hC, if_neg hn,
        if_pos rfl]
      unfold uAdd U64MOD
      omega
    refine ⟨e1, ?_⟩
    intro hR hn2
    have e2 : (balancer.RecordTransition cse
          ConnectivityState.Connecting n).1.numReady = 0 := by
      rw [show (balancer.RecordTransition cse ConnectivityState.Connecting n).1
            = balancer.applyDelta
                (balancer.applyDelta cse ConnectivityState.Connecting (U64MOD - 1)) n 1
            from rfl]
      rw [applyDelta_numReady, applyDelta_numReady, hR]
      simp [hn2]
    rw [show (balancer.RecordTransition cse ConnectivityState.Connecting n).2
          = balancer.evaluate
              (balancer.RecordTransition cse ConnectivityState.Connecting n).1 from rfl]
    unfold balancer.evaluate
    rw [e1, e2]
    rw [if_neg (by omega), if_pos (by unfold U64MOD; omega)]

/-- Witness for C8 (amended): the very first call on a fresh evaluator
being RecordTransition(Ready, Idle) wraps numReady to 2^64-1 and returns
aggregate Ready; the same holds at an evaluator with numReady 0 while
numConnecting is 7, exercising the branch that assumes only the
matching counter. -/
theorem C8_witness :
    ((balancer.RecordTransition ⟨0, 0⟩ ConnectivityState.Ready
        ConnectivityState.Idle).1.numReady = U64MOD - 1
      ∧ (balancer.RecordTransition ⟨0, 0⟩ ConnectivityState.Ready
        ConnectivityState.Idle).2 = ConnectivityState.Ready)
    ∧ ((balancer.RecordTransition ⟨0, 7⟩ ConnectivityState.Ready
        ConnectivityState.Idle).1.numReady = U64MOD - 1
      ∧ (balancer.RecordTransition ⟨0, 7⟩ ConnectivityState.Ready
        ConnectivityState.Idle).2 = ConnectivityState.Ready) :=
  ⟨(C8_underflow_amended ⟨0, 0⟩ ConnectivityState.Idle).1 rfl (by decide),
   (C8_underflow_amended ⟨0, 7⟩ ConnectivityState.Idle).1 rfl (by decide)⟩

/-- C10: the test-only unregister deletes the exact key, without case
folding: for a builder registered under declared name "Foo" (stored at
key "foo"), unregisterForTesting("Foo") leaves it registered and
Get("Foo") still returns it; unregisterForTesting("foo") removes it,
after which Get returns nil for every case variant of the name. -/
theorem C10_unregister_exact_key (Cfg : Type) (b : balancer.Builder Cfg)
    (hb : b.name = "Foo") (s : String) :
    balancer.Get
        (balancer.unregisterForTesting
          (balancer.Register balancer.emptyMap b) "Foo") "Foo" = some b
    ∧ (toLowerStr s = "foo" →
        balancer.Get
          (balancer.unregisterForTesting
            (balancer.Register balancer.emptyMap b) "foo") s = none) := by
  constructor
  · show (if toLowerStr "Foo" = "Foo" then none
          else if toLowerStr "Foo" = toLowerStr b.name then some b
          else balancer.emptyMap (toLowerStr "Foo")) = some b
    rw [hb, if_neg (by decide), if_pos rfl]
  · intro hs
    show (if toLowerStr s = "foo" then none
          else if toLowerStr s = toLowerStr b.name then some b
          else balancer.emptyMap (toLowerStr s)) = none
    rw [if_pos hs]

/-- Witness for C10 with the builder named "Foo" and the case variant
"FOO" after the effective unregistration. -/
theorem C10_witness :
    balancer.Get
        (balancer.unregisterForTesting
          (balancer.Register balancer.emptyMap bFoo) "Foo") "Foo" = some bFoo
    ∧ balancer.Get
        (balancer.unregisterForTesting
          (balancer.Register balancer.emptyMap bFoo) "foo") "FOO" = none :=
  ⟨(C10_unregister_exact_key Nat bFoo rfl "FOO").1,
   (C10_unregister_exact_key Nat bFoo rfl "FOO").2 (by decide)⟩
